import Mathlib

/-!
Verification of the REGAL-IA compliance interview engine.

This development embeds the core logic of the repository —
`src/document_processor.py` (chunking, embedding cache, retrieval) and
`src/legal_advisor.py` (prohibited-practice rule engine, interview state
machine, question generation, prohibited-system report) — as executable
Lean definitions, and settles the behavioural claims about them.

Modelling conventions:
* Python strings are modelled as `List Char` (`Str`); `len` is
  `List.length`, `in` is contiguous-substring search, `.lower()` maps
  `Char.toLower`, `.strip()` trims whitespace at both ends, `.split()`
  splits on whitespace runs dropping empties.
* External collaborators (the sentence-transformer encoder and the LLM)
  are oracle parameters: embedding vectors are `List ℚ`, pairwise
  similarity is an arbitrary function argument, and the LLM reply is the
  already-parsed JSON outcome (`Option AssessmentData`, `none` being a
  parse failure).
* The md5 content hash of a chunk is modelled as the chunk's text itself
  (a collision-free digest abstraction); the claims only compare hashes
  for equality.
-/

set_option maxRecDepth 100000

namespace RegalIA

/-- Python strings, modelled as lists of characters. -/
abbrev Str := List Char

/-- Python `.lower()`. -/
def lowerStr (s : Str) : Str := s.map Char.toLower

/-- Python `needle in hay`: contiguous substring test. -/
def strIn (needle : Str) : Str → Bool
  | [] => needle.isEmpty
  | c :: rest => needle.isPrefixOf (c :: rest) || strIn needle rest

/-- Python `any(kw in hay for kw in kws)`. -/
def anyKw (hay : Str) (kws : List Str) : Bool := kws.any (fun k => strIn k hay)

/-- Python `s.strip()`: drop whitespace at both ends. -/
def pyStrip (s : Str) : Str :=
  ((s.dropWhile Char.isWhitespace).reverse.dropWhile Char.isWhitespace).reverse

/-- Helper for `pySplitWs`: cut at every whitespace character. -/
def splitWhitespaceAux : Str → Str → List Str
  | [], acc => [acc.reverse]
  | c :: rest, acc =>
    if c.isWhitespace then acc.reverse :: splitWhitespaceAux rest []
    else splitWhitespaceAux rest (c :: acc)

/-- Python `s.split()`: split on whitespace runs, discarding empties. -/
def pySplitWs (s : Str) : List Str :=
  (splitWhitespaceAux s []).filter (fun w => !w.isEmpty)

/-- Python `l[-k:]` on lists: the last `k` elements, or the whole list
when `k = 0` (the `-0` slice quirk). -/
def lastSlice (k : ℕ) (l : List α) : List α :=
  if k = 0 then l else l.drop (l.length - k)

/-! ## Prohibited-practice rule engine
(`legal_advisor.py`, `process_initial_description`, lines 363-613.) -/

/-- One fired rule (the dicts appended to `prohibited_detections`).
The `matches` keyword-breakdown sub-dict is presentation detail rendered
into the warning text and is not modelled. -/
structure Detection where
  dtype : Str
  article : Str
  severity : Str
  evidence : Str
deriving DecidableEq

/-- Python `realtime_surveillance_patterns` (lines 375-383). -/
def realtimeSurveillancePatterns : List Str :=
  (["real-time identification", "real time identification",
    "real-time recognition", "real time recognition",
    "real-time biometric", "real time biometric",
    "live identification", "live recognition", "live biometric",
    "continuous surveillance", "continuous identification",
    "continuous tracking", "continuous biometric",
    "ongoing surveillance", "ongoing identification"] : List String).map String.toList

/-- Python `simple_realtime` (line 385). -/
def simpleRealtime : List Str :=
  (["real-time", "real time", "live"] : List String).map String.toList

/-- Python `biometric_indicators` (lines 387-388). -/
def biometricIndicators : List Str :=
  (["facial recognition", "face recognition", "biometric identification",
    "biometric", "face id", "facial id"] : List String).map String.toList

/-- Python `public_indicators` (lines 389-391). -/
def publicIndicators : List Str :=
  (["public space", "publicly accessible", "public area", "street",
    "transport hub", "shopping center", "urban space", "crowd",
    "publicly accessible urban"] : List String).map String.toList

/-- Python `monitoring_keywords` (lines 399-403). -/
def monitoringKeywords : List Str :=
  (["continuous monitoring", "dashboard", "audit", "metric",
    "weekly", "quarterly", "logging", "performance monitoring",
    "drift detection", "accuracy monitoring"] : List String).map String.toList

/-- Python `surveillance_context` (line 405). -/
def surveillanceContext : List Str :=
  (["surveillance", "tracking", "identification", "general public"] : List String).map String.toList

/-- Python `sensitive_attrs` (lines 433-434). -/
def sensitiveAttrs : List Str :=
  (["race", "ethnicity", "ethnic", "political opinion", "religious belief",
    "sexual orientation", "philosophical belief"] : List String).map String.toList

/-- Python `biometric_inference` (line 435). -/
def biometricInference : List Str :=
  (["infer", "deduce", "predict", "categorize", "categorise", "classify"] : List String).map String.toList

/-- Python `exclusion_contexts` (lines 440-447). -/
def exclusionContexts : List Str :=
  (["balanced across", "balance across", "balanced for",
    "no demographic classification", "excluded scope",
    "does not infer", "does not classify", "does not categorize",
    "no inference", "no classification", "no categorization",
    "prevent bias", "avoid bias", "mitigate bias",
    "diversity in training", "representative dataset"] : List String).map String.toList

/-- Python `social_scoring` (lines 468-469). -/
def socialScoringKws : List Str :=
  (["social scoring", "social credit", "trustworthiness score",
    "citizen score", "social ranking", "reputation score"] : List String).map String.toList

/-- Python `authority_indicators` (line 470). -/
def authorityIndicators : List Str :=
  (["government", "public authority", "state", "municipality", "agency"] : List String).map String.toList

/-- Python `manipulation` (lines 487-488). -/
def manipulationKws : List Str :=
  (["subliminal", "subconscious", "manipulate behavior", "manipulative technique",
    "exploit psychological"] : List String).map String.toList

/-- Python `vulnerability_exploit` (lines 502-503). -/
def vulnerabilityExploit : List Str :=
  (["exploit vulnerability", "exploit disabilities", "exploit age",
    "target vulnerable", "exploit economic situation"] : List String).map String.toList

/-- Python `predictive` (line 517). -/
def predictiveKws : List Str :=
  (["predictive policing", "crime prediction", "risk assessment", "recidivism prediction"] : List String).map String.toList

/-- Python `profiling` (line 518). -/
def profilingKws : List Str :=
  (["profiling", "personality trait", "behavioral pattern", "individual characteristic"] : List String).map String.toList

/-- The Article 5(1)(d) detector's `has_realtime` flag, including the
technical-monitoring false-positive suppression (lines 393-411). -/
def hasRealtimeFlag (descLower : Str) : Bool :=
  let base :=
    if anyKw descLower realtimeSurveillancePatterns then true
    else anyKw descLower simpleRealtime
  if base && strIn "continuous".toList descLower then
    let isTechnicalMonitoring := anyKw descLower monitoringKeywords
    let hasSurveillanceContext := anyKw descLower surveillanceContext
    if isTechnicalMonitoring && !hasSurveillanceContext then false else base
  else base

/-- Python `process_initial_description` (lines 363-613): evaluates the six
detector blocks over the lower-cased description and collects fired
detections in code order. Returns the list of detections and
`is_prohibited`; the rendered warning text (lines 544-610) is fixed
boilerplate keyed off these detections and is not modelled separately. -/
def processInitialDescription (desc : Str) : List Detection × Bool :=
  let descLower := lowerStr desc
  let hasRealtime := hasRealtimeFlag descLower
  let hasBiometric := anyKw descLower biometricIndicators
  let hasPublic := anyKw descLower publicIndicators
  let d1 : Option Detection :=
    if hasRealtime && hasBiometric && hasPublic then
      some { dtype := "Real-Time Remote Biometric Identification in Public Spaces".toList,
             article := "Article 5(1)(d)".toList,
             severity := "CRITICAL".toList,
             evidence := "System uses real-time facial recognition in publicly accessible spaces".toList }
    else none
  let hasSensitive := anyKw descLower sensitiveAttrs
  let hasInference := anyKw descLower biometricInference
  let isComplianceContext := anyKw descLower exclusionContexts
  let d2 : Option Detection :=
    if hasBiometric && hasSensitive && (hasInference || strIn "attribute".toList descLower)
        && !isComplianceContext then
      some { dtype := "Biometric Categorization Based on Sensitive Attributes".toList,
             article := "Article 5(1)(e)".toList,
             severity := "CRITICAL".toList,
             evidence := "System infers sensitive attributes: ".toList ++
               List.intercalate ", ".toList (sensitiveAttrs.filter (fun a => strIn a descLower)) }
    else none
  let hasSocialScoring := anyKw descLower socialScoringKws
  let hasAuthority := anyKw descLower authorityIndicators
  let d3 : Option Detection :=
    if hasSocialScoring || (hasAuthority && strIn "trustworthiness".toList descLower) then
      some { dtype := "Social Scoring by Public Authorities".toList,
             article := "Article 5(1)(c)".toList,
             severity := "CRITICAL".toList,
             evidence := "System evaluates trustworthiness/social behavior for governmental purposes".toList }
    else none
  let d4 : Option Detection :=
    if anyKw descLower manipulationKws then
      some { dtype := "Subliminal Manipulation".toList,
             article := "Article 5(1)(a)".toList,
             severity := "CRITICAL".toList,
             evidence := "System uses subliminal or manipulative techniques".toList }
    else none
  let d5 : Option Detection :=
    if anyKw descLower vulnerabilityExploit then
      some { dtype := "Exploitation of Vulnerabilities".toList,
             article := "Article 5(1)(b)".toList,
             severity := "CRITICAL".toList,
             evidence := "System exploits vulnerabilities of specific groups".toList }
    else none
  let d6 : Option Detection :=
    if anyKw descLower predictiveKws && anyKw descLower profilingKws then
      some { dtype := "Predictive Policing Based on Profiling".toList,
             article := "Article 5(1)(g)".toList,
             severity := "HIGH".toList,
             evidence := "System predicts criminal behavior based on profiling".toList }
    else none
  let detections := ([d1, d2, d3, d4, d5, d6].filterMap id)
  (detections, !detections.isEmpty)

/-- The spec's rule-engine example input (spec section 8). -/
def c1SpecInput : Str :=
  "We deploy real-time facial recognition cameras in train stations to identify passengers".toList

/-- The same scenario with a public-space term that is actually in the
detector's `public_indicators` vocabulary. -/
def c1HubInput : Str :=
  "We deploy real-time facial recognition cameras in transport hubs to identify passengers".toList

/-- C1 counterexample: on the spec's input no detector fires and
`is_prohibited` is `false` — "train stations" matches none of the
detector's public-space indicators, so rule 1's `has_public` conjunct
fails, contrary to the claim. -/
theorem c1_counterexample :
    processInitialDescription c1SpecInput = ([], false) := by decide

/-- C1 (amended): with the public-space wording drawn from the code's own
vocabulary ("transport hubs"), detector 1 — and only detector 1 — fires,
with severity CRITICAL and citation Article 5(1)(d), and the description
is reported as prohibited. -/
theorem c1_amended_detector_fires :
    processInitialDescription c1HubInput =
      ([{ dtype := "Real-Time Remote Biometric Identification in Public Spaces".toList,
          article := "Article 5(1)(d)".toList,
          severity := "CRITICAL".toList,
          evidence := "System uses real-time facial recognition in publicly accessible spaces".toList }],
       true) := by decide

/-! ## Corpus chunker
(`document_processor.py`, `DocumentProcessor.load_and_chunk_document`,
lines 43-81; `chunk_size = 800`, `overlap = 150`.) -/

/-- Python `DocumentProcessor.chunk_size` default. -/
def CHUNK_SIZE : ℕ := 800

/-- Python `DocumentProcessor.overlap` default. -/
def OVERLAP : ℕ := 150

/-- Helper for `splitParas`: cut at every `"\n\n"` occurrence. -/
def splitParasAux : Str → Str → List Str
  | '\n' :: '\n' :: rest, acc => acc.reverse :: splitParasAux rest []
  | c :: rest, acc => splitParasAux rest (c :: acc)
  | [], acc => [acc.reverse]

/-- Python `text.split('\n\n')`. -/
def splitParas (text : Str) : List Str := splitParasAux text []

/-- Python `range(0, n, step)` for `step > 0`. -/
def strideIndices (n step : ℕ) : List ℕ :=
  (List.range ((n + step - 1) / step)).map (fun i => i * step)

/-- Python `' '.join(ws)`. -/
def joinWords (ws : List Str) : Str := List.intercalate [' '] ws

/-- The body of the paragraph loop (lines 66-76): a paragraph longer than
`chunk_size` *characters* is re-windowed into spans of `chunk_size` words
with stride `chunk_size - overlap`, keeping only fragments whose stripped
length exceeds 100 characters; otherwise the paragraph is one chunk. -/
def chunkParagraph (para : Str) : List Str :=
  if CHUNK_SIZE < para.length then
    let words := pySplitWs para
    (strideIndices words.length (CHUNK_SIZE - OVERLAP)).filterMap (fun i =>
      let chunkText := joinWords ((words.drop i).take CHUNK_SIZE)
      if 100 < (pyStrip chunkText).length then some chunkText else none)
  else [para]

/-- Lines 64-65: prefix the page marker, split into paragraphs on blank
lines, strip each, and keep those longer than 50 characters. -/
def pageParagraphs (pageNum : ℕ) (rawText : Str) : List Str :=
  let text := "[Page ".toList ++ (toString (pageNum + 1)).toList ++ "] ".toList ++ rawText
  ((splitParas text).map pyStrip).filter (fun p => 50 < p.length)

/-- The chunk texts produced from one extracted page (the loop body of
`load_and_chunk_document`; page/index metadata attachment is immediate). -/
def processPage (pageNum : ℕ) (rawText : Str) : List Str :=
  (pageParagraphs pageNum rawText).flatMap chunkParagraph

/-- A 651-word paragraph (650 one-letter words and one 101-letter word),
2051 characters long. -/
def c6Para : Str := joinWords (List.replicate 650 ['a'] ++ [List.replicate 101 'b'])

/-- C6 counterexample: `c6Para` has at most 800 words — so by the claim it
must become exactly one chunk — yet the code's budget test is on
*characters* (`len(para) > 800`), so the paragraph is re-windowed and
yields two chunks. -/
theorem c6_counterexample :
    (pySplitWs c6Para).length ≤ CHUNK_SIZE ∧ (chunkParagraph c6Para).length ≠ 1 := by decide

/-- C6 (amended): the chunk-size budget is measured in *characters*:
a paragraph of at most 800 characters becomes exactly one chunk, and a
paragraph over 800 characters is re-windowed into 800-*word* spans
starting at multiples of the 650-word stride, keeping exactly the
fragments whose stripped length exceeds 100 characters. -/
theorem c6_amended_chunking (para : Str) :
    (para.length ≤ CHUNK_SIZE → chunkParagraph para = [para]) ∧
    (CHUNK_SIZE < para.length → ∀ frag ∈ chunkParagraph para,
      100 < (pyStrip frag).length ∧
      ∃ i, i < (pySplitWs para).length ∧ i % (CHUNK_SIZE - OVERLAP) = 0 ∧
        frag = joinWords (((pySplitWs para).drop i).take CHUNK_SIZE)) := by
  constructor
  · intro h
    have hlt : ¬ CHUNK_SIZE < para.length := by omega
    simp [chunkParagraph, hlt]
  · intro h frag hfrag
    simp only [chunkParagraph, if_pos h] at hfrag
    rw [List.mem_filterMap] at hfrag
    obtain ⟨i, hi, heq⟩ := hfrag
    simp only [strideIndices, List.mem_map, List.mem_range] at hi
    obtain ⟨j, hj, rfl⟩ := hi
    by_cases hc :
        100 < (pyStrip (joinWords (((pySplitWs para).drop (j * (CHUNK_SIZE - OVERLAP))).take CHUNK_SIZE))).length
    · rw [if_pos hc] at heq
      obtain rfl := Option.some.inj heq
      refine ⟨hc, j * (CHUNK_SIZE - OVERLAP), ?_, Nat.mul_mod_left j _, rfl⟩
      have hs : CHUNK_SIZE - OVERLAP = 650 := by decide
      rw [hs] at hj ⊢
      have h1 : (j + 1) * 650 ≤ (((pySplitWs para).length + 650 - 1) / 650) * 650 :=
        Nat.mul_le_mul_right _ hj
      have h2 : (((pySplitWs para).length + 650 - 1) / 650) * 650 ≤ (pySplitWs para).length + 650 - 1 :=
        Nat.div_mul_le_self _ _
      omega
    · rw [if_neg hc] at heq
      exact absurd heq (by simp)

/-- Witness for `c6_amended_chunking`: a short paragraph is one chunk,
and the amended windowing facts hold of the 2051-character `c6Para`. -/
theorem c6_amended_witness :
    chunkParagraph "short paragraph".toList = ["short paragraph".toList] ∧
    (∀ frag ∈ chunkParagraph c6Para,
      100 < (pyStrip frag).length ∧
      ∃ i, i < (pySplitWs c6Para).length ∧ i % (CHUNK_SIZE - OVERLAP) = 0 ∧
        frag = joinWords (((pySplitWs c6Para).drop i).take CHUNK_SIZE)) :=
  ⟨(c6_amended_chunking _).1 (by decide), (c6_amended_chunking c6Para).2 (by decide)⟩

/-! ## Embedding service
(`document_processor.py`, `EmbeddingService`, lines 84-160.) -/

/-- Embedding vectors (numpy float arrays, abstracted over ℚ). -/
abbrev Vec := List ℚ

/-- Python `DocumentChunk` (lines 17-40). `text_hash` is derived from `text`
(see `DocumentChunk.textHash`); the `extracted_articles` regex metadata
is only rendered into prompts and is not modelled. -/
structure DocumentChunk where
  text : Str
  pageNumber : ℕ
  chunkIndex : ℕ
  documentName : Str
  embedding : Option Vec
deriving DecidableEq

/-- Python `text_hash = md5(text)` (line 26), modelled as the text itself: a
collision-free digest abstraction, adequate because the code only ever
compares hashes for equality. -/
def DocumentChunk.textHash (c : DocumentChunk) : Str := c.text

/-- The pickled cache dict (lines 114-118). -/
structure EmbedCache where
  hashes : List Str
  embeddings : List Vec
deriving DecidableEq

/-- Python `EmbeddingService.generate_embeddings` (lines 91-123).  `encode` is
the external sentence-transformer; `cache` is the unpickled cache file
(`none` when the file is absent or unreadable).  Returns the chunks with
embeddings assigned, whether embeddings were recomputed, and the cache
contents written back (`none` when the cached embeddings were reused).
Out-of-range index access is modelled with `[i]?` (leaving the embedding
unset) rather than a raised exception; the claims never exercise it. -/
def generateEmbeddings (encode : List Str → List Vec) (cache : Option EmbedCache)
    (chunks : List DocumentChunk) : List DocumentChunk × Bool × Option EmbedCache :=
  let recompute : List DocumentChunk × Bool × Option EmbedCache :=
    let embeddings := encode (chunks.map (fun c => c.text))
    (chunks.enum.map (fun p => { p.2 with embedding := embeddings[p.1]? }), true,
     some { hashes := chunks.map (fun c => c.textHash), embeddings := embeddings })
  match cache with
  | some cached =>
    if cached.hashes.length = chunks.length then
      (chunks.enum.map (fun p => { p.2 with embedding := cached.embeddings[p.1]? }), false, none)
    else recompute
  | none => recompute

/-- A chunk whose hash disagrees with the cached hash list below. -/
def c2Chunk : DocumentChunk :=
  { text := "alpha".toList, pageNumber := 0, chunkIndex := 0,
    documentName := "EU_AI_Act".toList, embedding := none }

/-- A cache of the right *length* but with a different hash. -/
def c2Cache : EmbedCache := { hashes := ["beta".toList], embeddings := [[1]] }

/-- A concrete stand-in encoder. -/
def c2Encode : List Str → List Vec := fun ts => ts.map (fun _ => [0])

/-- C2: the cache-validity check at line 99 compares only the *length* of
the cached hash list with the chunk count — the stored hashes are never
read — so a cache whose hash list differs in every position is still
used: no re-embedding happens and the stale cached vector is assigned,
contradicting the claim (and the cache's own purpose in storing hashes). -/
theorem c2_code_bug_eval :
    (generateEmbeddings c2Encode (some c2Cache) [c2Chunk]).2.1 = false ∧
    (generateEmbeddings c2Encode (some c2Cache) [c2Chunk]).1 =
      [{ c2Chunk with embedding := some [1] }] ∧
    c2Cache.hashes ≠ [c2Chunk.textHash] := by decide

/-! ## Retrieval
(`document_processor.py`, `EmbeddingService.find_relevant_chunks`,
lines 125-151.) -/

/-- The ascending-similarity comparison used to model
`np.argsort(similarities)` (tie order in numpy's quicksort is
unspecified; every claim proved here is tie-insensitive). -/
def simLE : DocumentChunk × ℚ → DocumentChunk × ℚ → Prop := fun a b => a.2 ≤ b.2

instance : DecidableRel simLE := fun a b => inferInstanceAs (Decidable (a.2 ≤ b.2))

instance : IsTotal (DocumentChunk × ℚ) simLE := ⟨fun a b => le_total a.2 b.2⟩

instance : IsTrans (DocumentChunk × ℚ) simLE := ⟨fun _ _ _ h1 h2 => le_trans h1 h2⟩

/-- The de-duplication loop (lines 139-147): walk the candidates, skip
already-seen content hashes, and stop right after the selection reaches
`top_k` elements (the `break` fires after the append, so with
`top_k = 0` one element is still returned — Python's
`len(selected) >= top_k` test). -/
def dedupByHash (topK : ℕ) (seen : List Str) (count : ℕ) :
    List (DocumentChunk × ℚ) → List (DocumentChunk × ℚ)
  | [] => []
  | p :: rest =>
    if p.1.textHash ∈ seen then dedupByHash topK seen count rest
    else if topK ≤ count + 1 then [p]
    else p :: dedupByHash topK (p.1.textHash :: seen) (count + 1) rest

/-- The scored selection pipeline of `find_relevant_chunks` (the branch
where at least one chunk has an embedding): score every embedded chunk
against the query, sort ascending, take the last `top_k`
(`[-top_k:]`, the whole list when `top_k = 0`), reverse, de-duplicate. -/
def findRelevantChunksScored (sim : Vec → Vec → ℚ) (queryEmb : Vec)
    (chunks : List DocumentChunk) (topK : ℕ) : List (DocumentChunk × ℚ) :=
  let valid := chunks.filterMap (fun c => c.embedding.map (fun e => (c, e)))
  let scored := valid.map (fun p => (p.1, sim queryEmb p.2))
  dedupByHash topK [] 0 (lastSlice topK (List.insertionSort simLE scored)).reverse

/-- Python `EmbeddingService.find_relevant_chunks` (lines 125-151): when no
chunk carries an embedding the code degrades to the first `top_k` chunks
in corpus order (`chunks[:top_k]`); otherwise the scored pipeline runs.
The encoder-failure `except` branch is an external fault, not modelled. -/
def findRelevantChunks (sim : Vec → Vec → ℚ) (queryEmb : Vec)
    (chunks : List DocumentChunk) (topK : ℕ) : List DocumentChunk :=
  let valid := chunks.filterMap (fun c => c.embedding.map (fun e => (c, e)))
  if valid.isEmpty then chunks.take topK
  else (findRelevantChunksScored sim queryEmb chunks topK).map Prod.fst

theorem dedupByHash_sublist (topK : ℕ) :
    ∀ (l : List (DocumentChunk × ℚ)) (seen : List Str) (count : ℕ),
      (dedupByHash topK seen count l).Sublist l := by
  intro l
  induction l with
  | nil => intro seen count; simp [dedupByHash]
  | cons p rest ih =>
    intro seen count
    simp only [dedupByHash]
    split
    · exact (ih _ _).cons p
    · split
      · exact (List.nil_sublist rest).cons₂ p
      · exact (ih _ _).cons₂ p

theorem dedupByHash_length_le (topK : ℕ) :
    ∀ (l : List (DocumentChunk × ℚ)) (seen : List Str) (count : ℕ), count < topK →
      (dedupByHash topK seen count l).length ≤ topK - count := by
  intro l
  induction l with
  | nil => intro seen count h; simp [dedupByHash]
  | cons p rest ih =>
    intro seen count h
    simp only [dedupByHash]
    split
    · exact ih _ _ h
    · split
      · next h2 => simp only [List.length_cons, List.length_nil]; omega
      · next h2 =>
        have hrec := ih (p.1.textHash :: seen) (count + 1) (by omega)
        simp only [List.length_cons]
        omega

theorem dedupByHash_hashes (topK : ℕ) :
    ∀ (l : List (DocumentChunk × ℚ)) (seen : List Str) (count : ℕ),
      ((dedupByHash topK seen count l).map (fun p => p.1.textHash)).Nodup ∧
      ∀ h ∈ (dedupByHash topK seen count l).map (fun p => p.1.textHash), h ∉ seen := by
  intro l
  induction l with
  | nil => intro seen count; simp [dedupByHash]
  | cons p rest ih =>
    intro seen count
    simp only [dedupByHash]
    split
    · exact ih _ _
    · next hmem =>
      split
      · refine ⟨by simp, ?_⟩
        intro h hh
        simp only [List.map_cons, List.map_nil, List.mem_singleton] at hh
        subst hh
        exact hmem
      · obtain ⟨ihnd, ihseen⟩ := ih (p.1.textHash :: seen) (count + 1)
        refine ⟨?_, ?_⟩
        · simp only [List.map_cons, List.nodup_cons]
          refine ⟨fun hx => ?_, ihnd⟩
          exact (ihseen _ hx) (List.mem_cons_self _ _)
        · intro h hh
          simp only [List.map_cons, List.mem_cons] at hh
          rcases hh with rfl | hh
          · exact hmem
          · exact fun hseen => (ihseen _ hh) (List.mem_cons_of_mem _ hseen)

theorem lastSlice_sublist (k : ℕ) (l : List α) : (lastSlice k l).Sublist l := by
  unfold lastSlice
  split
  · exact List.Sublist.refl l
  · exact List.drop_sublist _ _

theorem mem_scored_embedding (sim : Vec → Vec → ℚ) (queryEmb : Vec)
    (chunks : List DocumentChunk) {p : DocumentChunk × ℚ}
    (hp : p ∈ (chunks.filterMap (fun c => c.embedding.map (fun e => (c, e)))).map
      (fun r => (r.1, sim queryEmb r.2))) :
    ∃ e, p.1.embedding = some e ∧ p.2 = sim queryEmb e := by
  rw [List.mem_map] at hp
  obtain ⟨r, hr, rfl⟩ := hp
  rw [List.mem_filterMap] at hr
  obtain ⟨c, _, hcr⟩ := hr
  rw [Option.map_eq_some'] at hcr
  obtain ⟨e, he, hre⟩ := hcr
  subst hre
  exact ⟨e, he, rfl⟩

theorem scored_result_mem (sim : Vec → Vec → ℚ) (queryEmb : Vec)
    (chunks : List DocumentChunk) (topK : ℕ) {p : DocumentChunk × ℚ}
    (hp : p ∈ findRelevantChunksScored sim queryEmb chunks topK) :
    ∃ e, p.1.embedding = some e ∧ p.2 = sim queryEmb e := by
  unfold findRelevantChunksScored at hp
  have h1 := (dedupByHash_sublist _ _ _ _).subset hp
  rw [List.mem_reverse] at h1
  have h2 := (lastSlice_sublist _ _).subset h1
  have h3 := (List.perm_insertionSort simLE _).subset h2
  exact mem_scored_embedding sim queryEmb chunks h3

theorem scored_result_pairwise (sim : Vec → Vec → ℚ) (queryEmb : Vec)
    (chunks : List DocumentChunk) (topK : ℕ) :
    (findRelevantChunksScored sim queryEmb chunks topK).Pairwise (fun a b => b.2 ≤ a.2) := by
  unfold findRelevantChunksScored
  refine List.Pairwise.sublist (dedupByHash_sublist _ _ _ _) ?_
  rw [List.pairwise_reverse]
  refine List.Pairwise.sublist (lastSlice_sublist _ _) ?_
  exact List.sorted_insertionSort simLE _

theorem scored_result_length_le (sim : Vec → Vec → ℚ) (queryEmb : Vec)
    (chunks : List DocumentChunk) (topK : ℕ) (hk : 1 ≤ topK) :
    (findRelevantChunksScored sim queryEmb chunks topK).length ≤ min topK chunks.length := by
  refine le_min ?_ ?_
  · have := dedupByHash_length_le topK
      ((lastSlice topK (List.insertionSort simLE
        ((chunks.filterMap (fun c => c.embedding.map (fun e => (c, e)))).map
          (fun p => (p.1, sim queryEmb p.2))))).reverse) [] 0 (by omega)
    simp only [findRelevantChunksScored]
    omega
  · have h1 := (dedupByHash_sublist topK
      ((lastSlice topK (List.insertionSort simLE
        ((chunks.filterMap (fun c => c.embedding.map (fun e => (c, e)))).map
          (fun p => (p.1, sim queryEmb p.2))))).reverse) [] 0).length_le
    have h2 := (lastSlice_sublist topK (List.insertionSort simLE
        ((chunks.filterMap (fun c => c.embedding.map (fun e => (c, e)))).map
          (fun p => (p.1, sim queryEmb p.2))))).length_le
    have h3 := (List.perm_insertionSort simLE
        ((chunks.filterMap (fun c => c.embedding.map (fun e => (c, e)))).map
          (fun p => (p.1, sim queryEmb p.2)))).length_eq
    have h4 := List.length_filterMap_le (fun c : DocumentChunk => c.embedding.map (fun e => (c, e))) chunks
    simp only [findRelevantChunksScored]
    simp only [List.length_reverse, List.length_map] at *
    omega

/-- C5 counterexample: with two distinct chunks sharing the same text
(hence the same content hash) and no embeddings, `find_relevant_chunks`
degrades to `chunks[:top_k]` and returns the same content hash twice,
contradicting the claim's universal no-duplicate guarantee. -/
theorem c5_counterexample :
    (findRelevantChunks (fun _ _ => 0) [] [⟨"dup".toList, 0, 0, "EU_AI_Act".toList, none⟩,
        ⟨"dup".toList, 0, 1, "EU_AI_Act".toList, none⟩] 2).length = 2 ∧
    ¬ ((findRelevantChunks (fun _ _ => 0) [] [⟨"dup".toList, 0, 0, "EU_AI_Act".toList, none⟩,
        ⟨"dup".toList, 0, 1, "EU_AI_Act".toList, none⟩] 2).map
          (fun c => c.textHash)).Nodup := by
  refine ⟨by decide, by decide⟩

/-- C5 (amended): provided `k ≥ 1` and at least one chunk carries an
embedding (so the corpus-order fallback is not taken), the retrieval
returns at most `min k |chunks|` chunks, never repeats a content hash,
and is ordered by non-increasing similarity to the query. -/
theorem c5_amended_retrieval (sim : Vec → Vec → ℚ) (queryEmb : Vec)
    (chunks : List DocumentChunk) (topK : ℕ) (hk : 1 ≤ topK)
    (hemb : ∃ c ∈ chunks, c.embedding ≠ none) :
    (findRelevantChunks sim queryEmb chunks topK).length ≤ min topK chunks.length ∧
    ((findRelevantChunks sim queryEmb chunks topK).map (fun c => c.textHash)).Nodup ∧
    (findRelevantChunks sim queryEmb chunks topK).Pairwise
      (fun a b => sim queryEmb (b.embedding.getD []) ≤ sim queryEmb (a.embedding.getD [])) := by
  obtain ⟨c0, hc0, he0⟩ := hemb
  obtain ⟨e0, he⟩ : ∃ e, c0.embedding = some e := by
    cases hco : c0.embedding with
    | none => exact absurd hco he0
    | some e => exact ⟨e, rfl⟩
  have hmem0 : (c0, e0) ∈ chunks.filterMap (fun c => c.embedding.map (fun e => (c, e))) :=
    List.mem_filterMap.mpr ⟨c0, hc0, by simp [he]⟩
  have hfr : findRelevantChunks sim queryEmb chunks topK =
      (findRelevantChunksScored sim queryEmb chunks topK).map Prod.fst := by
    unfold findRelevantChunks
    rw [if_neg]
    intro hcontra
    rw [List.isEmpty_iff] at hcontra
    rw [hcontra] at hmem0
    exact List.not_mem_nil _ hmem0
  refine ⟨?_, ?_, ?_⟩
  · rw [hfr, List.length_map]
    exact scored_result_length_le sim queryEmb chunks topK hk
  · rw [hfr, List.map_map]
    exact (dedupByHash_hashes _ _ _ _).1
  · rw [hfr, List.pairwise_map]
    refine List.Pairwise.imp_of_mem ?_ (scored_result_pairwise sim queryEmb chunks topK)
    intro a b ha hb hr
    obtain ⟨ea, hea, hpa⟩ := scored_result_mem sim queryEmb chunks topK ha
    obtain ⟨eb, heb, hpb⟩ := scored_result_mem sim queryEmb chunks topK hb
    simp only [hea, heb, Option.getD_some, ← hpa, ← hpb]
    exact hr

/-- A constant-zero similarity oracle for concrete evaluations. -/
def c5Sim : Vec → Vec → ℚ := fun _ _ => 0

/-- A concrete chunk that carries an embedding. -/
def c5EmbChunk : DocumentChunk := ⟨"emb".toList, 0, 0, "EU_AI_Act".toList, some [1]⟩

/-- Witness for `c5_amended_retrieval` at a concrete embedded corpus. -/
theorem c5_amended_witness :
    (findRelevantChunks c5Sim [] [c5EmbChunk] 1).length ≤ min 1 [c5EmbChunk].length ∧
    ((findRelevantChunks c5Sim [] [c5EmbChunk] 1).map (fun c => c.textHash)).Nodup ∧
    (findRelevantChunks c5Sim [] [c5EmbChunk] 1).Pairwise
      (fun a b => c5Sim [] (b.embedding.getD []) ≤ c5Sim [] (a.embedding.getD [])) :=
  c5_amended_retrieval c5Sim [] [c5EmbChunk] 1 (by decide) (by decide)

/-! ## Interview state machine
(`legal_advisor.py`, `LegalAdvisor`.)  The LLM call of
`_generate_question` (lines 176-217: prompt construction and
`self.llm.chat`) is an external collaborator; what the state machine
consumes is the parse outcome of its reply (lines 219-247), modelled as
`Option AssessmentData` with `none` for a `json.JSONDecodeError`.
Likewise `compute_similarity` (embedding two texts and taking cosine
similarity) is an oracle `SimFn`, and the final report text produced by
`_generate_final_analysis` is opaque: the claims only concern the `done`
flag and the state. -/

/-- Python `MAX_QUESTIONS` (line 17). -/
def MAX_QUESTIONS : ℕ := 15

/-- Python `MIN_QUESTIONS` (line 18). -/
def MIN_QUESTIONS : ℕ := 3

/-- Python `CONFIDENCE_THRESHOLD` (line 19). -/
def CONFIDENCE_THRESHOLD : ℚ := mkRat 3 4

/-- Python `DUPLICATE_SIMILARITY_THRESHOLD` (line 20). -/
def DUPLICATE_SIMILARITY_THRESHOLD : ℚ := mkRat 3 4

/-- Python `EmbeddingService.compute_similarity`, as an oracle: deterministic
per the spec's embedding-provider contract. -/
abbrev SimFn := Str → Str → ℚ

/-- The assessment dict exchanged with the generator (parsed JSON reply
and the dicts built at lines 229-235, 242-247). Absent keys are `none`
(`dict.get` semantics). -/
structure AssessmentData where
  status : Option Str
  confidence : Option ℚ
  riskHypothesis : Option Str
  reasoning : Option Str
  nextQuestion : Option Str
deriving DecidableEq

/-- The advisor's mutable consultation fields (lines 39-43).
`relevant_articles` is a retrieval cache only rendered into the final
report and is not modelled. -/
structure AdvisorState where
  modelDescription : Str
  pendingDescription : Str
  interviewHistory : List (Str × Str)
  askedQuestionsTexts : List Str
deriving DecidableEq

/-- Python truthiness of an optional string (`if data.get("next_question"):`). -/
def pyTruthyStr : Option Str → Bool
  | none => false
  | some s => !s.isEmpty

/-- Python `_is_duplicate_question` (lines 98-107): compare against the last 3
asked questions. -/
def isDuplicateQuestion (sim : SimFn) (asked : List Str) (q : Str) : Bool :=
  if asked.isEmpty then false
  else (lastSlice 3 asked).any
    (fun askedQ => decide (DUPLICATE_SIMILARITY_THRESHOLD < sim q askedQ))

/-- The fixed fallback question list (lines 251-260). -/
def fallbackQuestions : List Str :=
  (["What specific types of personal data does your AI system process?",
    "Describe the decision-making process: fully automated or human-reviewed?",
    "What are the consequences if your system makes an incorrect decision?",
    "In which EU member states will this system be deployed?",
    "What measures ensure accuracy and prevent bias?",
    "How are users notified they're interacting with an AI system?",
    "What documentation exists for training data and methodology?",
    "Describe your system's impact on fundamental rights."] : List String).map String.toList

/-- Python `_generate_fallback_question` (lines 249-265): first non-duplicate
fallback, appended to the asked log; `none` when all are duplicates. -/
def generateFallbackQuestion (sim : SimFn) (asked : List Str) :
    Option (Str × List Str) :=
  match fallbackQuestions.find? (fun q => !isDuplicateQuestion sim asked q) with
  | some q => some (q, asked ++ [q])
  | none => none

/-- The forced-conclusion override dict (lines 229-235). -/
def overrideAssessment (data : AssessmentData) : AssessmentData :=
  { status := some "ready_to_conclude".toList,
    confidence := some (mkRat 9 10),
    riskHypothesis := some (data.riskHypothesis.getD "assessment_needed".toList),
    reasoning := some "Sufficient information gathered".toList,
    nextQuestion := none }

/-- The parse-success branch of `_generate_question` (lines 225-238):
a truthy proposed question is either swallowed by the duplicate override
or appended to `asked_questions_texts`. -/
def generateQuestionParsed (sim : SimFn) (st : AdvisorState) (data : AssessmentData) :
    AssessmentData × AdvisorState :=
  match data.nextQuestion with
  | some q =>
    if q.isEmpty then (data, st)
    else if isDuplicateQuestion sim st.askedQuestionsTexts q then
      (overrideAssessment data, st)
    else (data, { st with askedQuestionsTexts := st.askedQuestionsTexts ++ [q] })
  | none => (data, st)

/-- Python `_generate_question` (lines 176-247) as a function of the parse
outcome: on success the parsed branch runs; on `json.JSONDecodeError`
the fallback dicts of lines 240-247 are produced. -/
def generateQuestion (sim : SimFn) (st : AdvisorState) (reply : Option AssessmentData) :
    AssessmentData × AdvisorState :=
  match reply with
  | some data => generateQuestionParsed sim st data
  | none =>
    match generateFallbackQuestion sim st.askedQuestionsTexts with
    | some (q, asked) =>
      ({ status := some "need_more_info".toList, confidence := some (mkRat 1 2),
         riskHypothesis := none, reasoning := none, nextQuestion := some q },
       { st with askedQuestionsTexts := asked })
    | none =>
      ({ status := some "ready_to_conclude".toList, confidence := some (mkRat 7 10),
         riskHypothesis := none, reasoning := none, nextQuestion := none }, st)

/-- Python `_should_conclude` (lines 267-278), checked in order: below
`MIN_QUESTIONS` never conclude; at `MAX_QUESTIONS` force conclude;
a `None` next question concludes; a ready status with confidence at
least the threshold concludes. -/
def shouldConclude (st : AdvisorState) (a : AssessmentData) : Bool :=
  if st.interviewHistory.length < MIN_QUESTIONS then false
  else if MAX_QUESTIONS ≤ st.interviewHistory.length then true
  else if a.nextQuestion = none then true
  else if a.status = some "ready_to_conclude".toList ∧
      CONFIDENCE_THRESHOLD ≤ a.confidence.getD 0 then true
  else false

/-- The outcome handed to the shell: the `done` flag and, when the
interview continues, the surfaced (stripped) question.  A `none`
question with `done = true` stands for the opaque final-report text. -/
structure StepResult where
  done : Bool
  surfacedQuestion : Option Str
deriving DecidableEq

/-- Python `ask_next_question` (lines 615-627). -/
def askNextQuestion (sim : SimFn) (st : AdvisorState) (reply : Option AssessmentData) :
    StepResult × AdvisorState :=
  let p := generateQuestion sim st reply
  if shouldConclude p.2 p.1 then ({ done := true, surfacedQuestion := none }, p.2)
  else if pyTruthyStr p.1.nextQuestion then
    ({ done := false, surfacedQuestion := some (pyStrip (p.1.nextQuestion.getD [])) }, p.2)
  else ({ done := true, surfacedQuestion := none }, p.2)

/-- Python `process_answer` (lines 629-635): the short-answer early exit, else
append the pair and ask the next question. -/
def processAnswer (sim : SimFn) (st : AdvisorState) (answer question : Str)
    (reply : Option AssessmentData) : StepResult × AdvisorState :=
  if (pySplitWs answer).length < 3 ∧ MIN_QUESTIONS ≤ st.interviewHistory.length then
    ({ done := true, surfacedQuestion := none }, st)
  else
    askNextQuestion sim
      { st with interviewHistory := st.interviewHistory ++ [(question, answer)] } reply

/-! ### Trace semantics
The shells (`cli.py` lines 70-135, `api.py` lines 197-241) drive one
consultation: after the description is committed, `ask_next_question`
surfaces the first question; then each user answer goes through
`process_answer` until `done` is returned.  A run is parametrised by the
oracle replies; `surfacedCount` counts the questions actually shown. -/

/-- One consultation's driver state. -/
structure RunState where
  advisor : AdvisorState
  surfacedCount : ℕ
  currentQuestion : Str
  finished : Bool
deriving DecidableEq

/-- One `process_answer` round as driven by the shells: no further calls
once the interview has concluded. -/
def runStep (sim : SimFn) (rs : RunState) (input : Str × Option AssessmentData) : RunState :=
  if rs.finished then rs
  else
    let p := processAnswer sim rs.advisor input.1 rs.currentQuestion input.2
    if p.1.done then { rs with advisor := p.2, finished := true }
    else
      { advisor := p.2, surfacedCount := rs.surfacedCount + 1,
        currentQuestion := p.1.surfacedQuestion.getD [], finished := false }

/-- A whole consultation after a committed description: the first
`ask_next_question`, then one `runStep` per user answer. -/
def runInterview (sim : SimFn) (desc : Str) (firstReply : Option AssessmentData)
    (steps : List (Str × Option AssessmentData)) : RunState :=
  let st0 : AdvisorState :=
    { modelDescription := desc, pendingDescription := [],
      interviewHistory := [], askedQuestionsTexts := [] }
  let p := askNextQuestion sim st0 firstReply
  let rs0 : RunState :=
    if p.1.done then
      { advisor := p.2, surfacedCount := 0, currentQuestion := [], finished := true }
    else
      { advisor := p.2, surfacedCount := 1,
        currentQuestion := p.1.surfacedQuestion.getD [], finished := false }
  steps.foldl (runStep sim) rs0

theorem generateQuestion_history (sim : SimFn) (st : AdvisorState)
    (reply : Option AssessmentData) :
    (generateQuestion sim st reply).2.interviewHistory = st.interviewHistory := by
  cases reply with
  | some data =>
    simp only [generateQuestion, generateQuestionParsed]
    split
    · split
      · rfl
      · split
        · rfl
        · rfl
    · rfl
  | none =>
    simp only [generateQuestion]
    split
    · rfl
    · rfl

theorem generateQuestion_asked_le (sim : SimFn) (st : AdvisorState)
    (reply : Option AssessmentData) :
    (generateQuestion sim st reply).2.askedQuestionsTexts.length ≤
      st.askedQuestionsTexts.length + 1 := by
  cases reply with
  | some data =>
    simp only [generateQuestion, generateQuestionParsed]
    split
    · split
      · simp
      · split
        · simp
        · simp
    · simp
  | none =>
    simp only [generateQuestion]
    split
    · next q asked heq =>
      unfold generateFallbackQuestion at heq
      split at heq
      · obtain ⟨rfl, rfl⟩ := Prod.mk.injEq .. ▸ Option.some.inj heq
        simp
      · exact absurd heq (by simp)
    · simp

theorem generateQuestion_truthy_asked (sim : SimFn) (st : AdvisorState)
    (reply : Option AssessmentData)
    (h : pyTruthyStr (generateQuestion sim st reply).1.nextQuestion = true) :
    (generateQuestion sim st reply).2.askedQuestionsTexts.length =
      st.askedQuestionsTexts.length + 1 := by
  cases reply with
  | some data =>
    rcases hq : data.nextQuestion with _ | q
    · simp [generateQuestion, generateQuestionParsed, hq, pyTruthyStr] at h
    · by_cases hempty : q.isEmpty
      · simp [generateQuestion, generateQuestionParsed, hq, hempty, pyTruthyStr] at h
      · by_cases hdup : isDuplicateQuestion sim st.askedQuestionsTexts q
        · simp [generateQuestion, generateQuestionParsed, hq, hempty, hdup,
            overrideAssessment, pyTruthyStr] at h
        · simp [generateQuestion, generateQuestionParsed, hq, hempty, hdup]
  | none =>
    simp only [generateQuestion] at h ⊢
    rcases hfb : generateFallbackQuestion sim st.askedQuestionsTexts with _ | ⟨q, asked⟩
    · rw [hfb] at h
      simp [pyTruthyStr] at h
    · have hasked : asked = st.askedQuestionsTexts ++ [q] := by
        unfold generateFallbackQuestion at hfb
        rcases hfind : fallbackQuestions.find?
            (fun r => !isDuplicateQuestion sim st.askedQuestionsTexts r) with _ | qf
        · rw [hfind] at hfb
          exact absurd hfb (by simp)
        · rw [hfind] at hfb
          have hpair := Option.some.inj hfb
          rw [Prod.mk.injEq] at hpair
          obtain ⟨rfl, h2⟩ := hpair
          exact h2.symm
      simp [hasked]

theorem askNextQuestion_state (sim : SimFn) (st : AdvisorState)
    (reply : Option AssessmentData) :
    (askNextQuestion sim st reply).2 = (generateQuestion sim st reply).2 := by
  simp only [askNextQuestion]
  split
  · rfl
  · split
    · rfl
    · rfl

theorem shouldConclude_of_max (st : AdvisorState) (a : AssessmentData)
    (h : MAX_QUESTIONS ≤ st.interviewHistory.length) : shouldConclude st a = true := by
  have h1 : ¬ st.interviewHistory.length < MIN_QUESTIONS := by
    unfold MIN_QUESTIONS
    unfold MAX_QUESTIONS at h
    omega
  simp [shouldConclude, h1, h]

theorem shouldConclude_false_len (st : AdvisorState) (a : AssessmentData)
    (h : shouldConclude st a = false) : st.interviewHistory.length < MAX_QUESTIONS := by
  by_contra hlen
  rw [shouldConclude_of_max st a (by omega)] at h
  exact absurd h (by simp)

theorem askNextQuestion_done_false_maxlen (sim : SimFn) (st : AdvisorState)
    (reply : Option AssessmentData)
    (h : (askNextQuestion sim st reply).1.done = false) :
    st.interviewHistory.length < MAX_QUESTIONS := by
  rw [← generateQuestion_history sim st reply]
  simp only [askNextQuestion] at h
  split at h
  · exact absurd h (by simp)
  · next hconc =>
    have hf : shouldConclude (generateQuestion sim st reply).2 (generateQuestion sim st reply).1 = false := by
      revert hconc
      cases shouldConclude (generateQuestion sim st reply).2 (generateQuestion sim st reply).1 <;> simp
    exact shouldConclude_false_len _ _ hf

theorem askNextQuestion_done_false_asked (sim : SimFn) (st : AdvisorState)
    (reply : Option AssessmentData)
    (h : (askNextQuestion sim st reply).1.done = false) :
    (askNextQuestion sim st reply).2.askedQuestionsTexts.length =
      st.askedQuestionsTexts.length + 1 := by
  rw [askNextQuestion_state]
  simp only [askNextQuestion] at h
  split at h
  · exact absurd h (by simp)
  · split at h
    · next htruthy => exact generateQuestion_truthy_asked sim st reply htruthy
    · exact absurd h (by simp)

theorem processAnswer_state (sim : SimFn) (st : AdvisorState) (answer question : Str)
    (reply : Option AssessmentData) :
    (processAnswer sim st answer question reply).2 = st ∨
    (processAnswer sim st answer question reply).2 =
      (generateQuestion sim
        { st with interviewHistory := st.interviewHistory ++ [(question, answer)] } reply).2 := by
  unfold processAnswer
  split
  · exact Or.inl rfl
  · exact Or.inr (askNextQuestion_state ..)

theorem processAnswer_history_le (sim : SimFn) (st : AdvisorState) (answer question : Str)
    (reply : Option AssessmentData) :
    (processAnswer sim st answer question reply).2.interviewHistory.length ≤
      st.interviewHistory.length + 1 := by
  rcases processAnswer_state sim st answer question reply with h | h
  · rw [h]; omega
  · rw [h, generateQuestion_history]; simp

theorem processAnswer_done_false_len (sim : SimFn) (st : AdvisorState) (answer question : Str)
    (reply : Option AssessmentData)
    (h : (processAnswer sim st answer question reply).1.done = false) :
    (processAnswer sim st answer question reply).2.interviewHistory.length < MAX_QUESTIONS := by
  unfold processAnswer at h ⊢
  split at h
  · exact absurd h (by simp)
  · next hcond =>
    rw [if_neg hcond]
    have hlt := askNextQuestion_done_false_maxlen sim _ reply h
    rw [askNextQuestion_state, generateQuestion_history]
    exact hlt

/-- The history-bound run invariant: at most `MAX_QUESTIONS` entries, and
strictly fewer while the interview is still open. -/
def historyInv (rs : RunState) : Prop :=
  rs.advisor.interviewHistory.length ≤ MAX_QUESTIONS ∧
  (rs.finished = false → rs.advisor.interviewHistory.length < MAX_QUESTIONS)

theorem runStep_historyInv (sim : SimFn) (rs : RunState)
    (input : Str × Option AssessmentData) (h : historyInv rs) :
    historyInv (runStep sim rs input) := by
  obtain ⟨h1, h2⟩ := h
  simp only [runStep]
  split
  · exact ⟨h1, h2⟩
  · next hfin =>
    have hopen : rs.finished = false := by
      revert hfin; cases rs.finished <;> simp
    have hlen := h2 hopen
    split
    · next hdone =>
      refine ⟨?_, fun hf => by simp at hf⟩
      have hle := processAnswer_history_le sim rs.advisor input.1 rs.currentQuestion input.2
      dsimp only
      unfold MAX_QUESTIONS at *
      omega
    · next hdone =>
      have hfd : (processAnswer sim rs.advisor input.1 rs.currentQuestion input.2).1.done = false := by
        revert hdone
        cases (processAnswer sim rs.advisor input.1 rs.currentQuestion input.2).1.done <;> simp
      have hlt := processAnswer_done_false_len sim rs.advisor input.1 rs.currentQuestion input.2 hfd
      exact ⟨Nat.le_of_lt hlt, fun _ => hlt⟩

theorem foldl_historyInv (sim : SimFn) :
    ∀ (steps : List (Str × Option AssessmentData)) (rs : RunState),
      historyInv rs → historyInv (steps.foldl (runStep sim) rs) := by
  intro steps
  induction steps with
  | nil => intro rs h; exact h
  | cons s rest ih => intro rs h; exact ih _ (runStep_historyInv sim rs s h)

/-- C4: along any consultation the interview history never exceeds
`MAX_QUESTIONS` entries, and any `process_answer` call made at or beyond
`MAX_QUESTIONS` history entries concludes with the final report. -/
theorem c4_interview_bounded (sim : SimFn) :
    (∀ (desc : Str) (firstReply : Option AssessmentData)
        (steps : List (Str × Option AssessmentData)),
      (runInterview sim desc firstReply steps).advisor.interviewHistory.length ≤ MAX_QUESTIONS) ∧
    (∀ (st : AdvisorState) (answer question : Str) (reply : Option AssessmentData),
      MAX_QUESTIONS ≤ st.interviewHistory.length →
      (processAnswer sim st answer question reply).1.done = true) := by
  constructor
  · intro desc firstReply steps
    simp only [runInterview]
    refine (foldl_historyInv sim steps _ ?_).1
    have hh : (askNextQuestion sim
        { modelDescription := desc, pendingDescription := [],
          interviewHistory := [], askedQuestionsTexts := [] } firstReply).2.interviewHistory = [] := by
      rw [askNextQuestion_state, generateQuestion_history]
    split
    · exact ⟨by simp [hh, MAX_QUESTIONS], fun hf => by simp at hf⟩
    · exact ⟨by simp [hh, MAX_QUESTIONS], fun _ => by simp [hh, MAX_QUESTIONS]⟩
  · intro st answer question reply h
    unfold processAnswer
    split
    · rfl
    · have hc : shouldConclude
          (generateQuestion sim
            { st with interviewHistory := st.interviewHistory ++ [(question, answer)] } reply).2
          (generateQuestion sim
            { st with interviewHistory := st.interviewHistory ++ [(question, answer)] } reply).1 = true := by
        apply shouldConclude_of_max
        rw [generateQuestion_history]
        simp only [List.length_append, List.length_cons, List.length_nil]
        unfold MAX_QUESTIONS at *
        omega
      simp only [askNextQuestion]
      rw [if_pos hc]

/-- The constant-zero text-similarity oracle. -/
def simZero : SimFn := fun _ _ => 0

/-- A consultation state with an empty history. -/
def emptyAdvisor : AdvisorState :=
  { modelDescription := [], pendingDescription := [],
    interviewHistory := [], askedQuestionsTexts := [] }

/-- A consultation state that already holds `MAX_QUESTIONS` history entries. -/
def maxHistoryAdvisor : AdvisorState :=
  { modelDescription := [], pendingDescription := [],
    interviewHistory := List.replicate 15 ([], []), askedQuestionsTexts := [] }

/-- Witness for `c4_interview_bounded`. -/
theorem c4_interview_bounded_witness :
    (runInterview simZero [] none []).advisor.interviewHistory.length ≤ MAX_QUESTIONS ∧
    (processAnswer simZero maxHistoryAdvisor "short".toList [] none).1.done = true :=
  ⟨(c4_interview_bounded simZero).1 [] none [],
   (c4_interview_bounded simZero).2 maxHistoryAdvisor "short".toList [] none (by decide)⟩

/-- A parsed generator reply that carries no next question. -/
def c3NoQuestionReply : AssessmentData :=
  { status := some "need_more_info".toList, confidence := some 0,
    riskHypothesis := none, reasoning := none, nextQuestion := none }

/-- C3 counterexample: with an empty history (0 entries, fewer than
`MIN_QUESTIONS` = 3, and no short-answer exit in play)
`ask_next_question` still returns `done = true` as soon as the
assessment carries no next question — `_should_conclude` answers `False`
below `MIN_QUESTIONS`, but the `if not next_q` branch of
`ask_next_question` concludes regardless. -/
theorem c3_counterexample :
    emptyAdvisor.interviewHistory.length < MIN_QUESTIONS ∧
    (askNextQuestion simZero emptyAdvisor (some c3NoQuestionReply)).1.done = true := by decide

/-- C3 (amended): below `MIN_QUESTIONS` the `_should_conclude` policy
never fires, so `ask_next_question` concludes exactly when the generated
assessment carries no (nonempty) next question — the duplicate override,
an exhausted fallback list, or a generator reply without a question. -/
theorem c3_amended_conclusion_below_min (sim : SimFn) (st : AdvisorState)
    (reply : Option AssessmentData)
    (h : st.interviewHistory.length < MIN_QUESTIONS) :
    (askNextQuestion sim st reply).1.done = true ↔
      pyTruthyStr (generateQuestion sim st reply).1.nextQuestion = false := by
  have hlen : (generateQuestion sim st reply).2.interviewHistory.length < MIN_QUESTIONS := by
    rw [generateQuestion_history]; exact h
  have hconc : shouldConclude (generateQuestion sim st reply).2
      (generateQuestion sim st reply).1 = false := by
    simp [shouldConclude, hlen]
  simp only [askNextQuestion]
  rw [if_neg (by simp [hconc])]
  cases hq : pyTruthyStr (generateQuestion sim st reply).1.nextQuestion
  · simp [hq]
  · simp [hq]

/-- Witness for `c3_amended_conclusion_below_min`. -/
theorem c3_amended_witness :
    emptyAdvisor.interviewHistory.length < MIN_QUESTIONS ∧
    ((askNextQuestion simZero emptyAdvisor (some c3NoQuestionReply)).1.done = true ↔
      pyTruthyStr (generateQuestion simZero emptyAdvisor (some c3NoQuestionReply)).1.nextQuestion = false) :=
  ⟨by decide, c3_amended_conclusion_below_min simZero emptyAdvisor (some c3NoQuestionReply) (by decide)⟩

/-- C7: a parsed reply proposing a (nonempty) question whose similarity
to one of the last 3 asked questions exceeds the 0.75 threshold is
overridden to the forced conclusion signal — status
`ready_to_conclude`, confidence 0.9, no next question — the asked log is
untouched and no question is surfaced: the interview concludes. -/
theorem c7_duplicate_override (sim : SimFn) (st : AdvisorState) (data : AssessmentData)
    (q : Str) (hq : data.nextQuestion = some q) (hne : q ≠ [])
    (hdup : ∃ askedQ ∈ lastSlice 3 st.askedQuestionsTexts,
      DUPLICATE_SIMILARITY_THRESHOLD < sim q askedQ) :
    (generateQuestion sim st (some data)).1 = overrideAssessment data ∧
    (generateQuestion sim st (some data)).1.status = some "ready_to_conclude".toList ∧
    (generateQuestion sim st (some data)).1.confidence = some (mkRat 9 10) ∧
    (generateQuestion sim st (some data)).1.nextQuestion = none ∧
    (generateQuestion sim st (some data)).2 = st ∧
    (askNextQuestion sim st (some data)).1.surfacedQuestion = none ∧
    (askNextQuestion sim st (some data)).1.done = true := by
  have hasked : ¬ st.askedQuestionsTexts.isEmpty = true := by
    obtain ⟨a, ha, _⟩ := hdup
    intro he
    rw [List.isEmpty_iff] at he
    rw [he] at ha
    simp [lastSlice] at ha
  have hdupb : isDuplicateQuestion sim st.askedQuestionsTexts q = true := by
    unfold isDuplicateQuestion
    rw [if_neg hasked, List.any_eq_true]
    obtain ⟨a, ha, hlt⟩ := hdup
    exact ⟨a, ha, by simp [hlt]⟩
  have hempty : ¬ q.isEmpty = true := by
    rw [List.isEmpty_iff]
    exact hne
  have hgen : generateQuestion sim st (some data) = (overrideAssessment data, st) := by
    simp only [generateQuestion, generateQuestionParsed, hq]
    rw [if_neg hempty, if_pos hdupb]
  refine ⟨by rw [hgen], by rw [hgen]; rfl, by rw [hgen]; rfl, by rw [hgen]; rfl,
    by rw [hgen], ?_, ?_⟩
  · simp only [askNextQuestion, hgen]
    split
    · rfl
    · split
      · next htruthy => simp [overrideAssessment, pyTruthyStr] at htruthy
      · rfl
  · simp only [askNextQuestion, hgen]
    split
    · rfl
    · split
      · next htruthy => simp [overrideAssessment, pyTruthyStr] at htruthy
      · rfl

/-- A parsed reply proposing a near-duplicate question. -/
def c7Data : AssessmentData :=
  { status := some "need_more_info".toList, confidence := some 0,
    riskHypothesis := none, reasoning := none,
    nextQuestion := some "What data do you process?".toList }

/-- The constant-one text-similarity oracle: everything is a duplicate. -/
def simOne : SimFn := fun _ _ => 1

/-- A consultation state with one previously asked question. -/
def c7State : AdvisorState :=
  { modelDescription := [], pendingDescription := [], interviewHistory := [],
    askedQuestionsTexts := ["Tell me about your data.".toList] }

/-- Witness for `c7_duplicate_override`. -/
theorem c7_duplicate_override_witness :
    (generateQuestion simOne c7State (some c7Data)).1 = overrideAssessment c7Data ∧
    (generateQuestion simOne c7State (some c7Data)).1.status = some "ready_to_conclude".toList ∧
    (generateQuestion simOne c7State (some c7Data)).1.confidence = some (mkRat 9 10) ∧
    (generateQuestion simOne c7State (some c7Data)).1.nextQuestion = none ∧
    (generateQuestion simOne c7State (some c7Data)).2 = c7State ∧
    (askNextQuestion simOne c7State (some c7Data)).1.surfacedQuestion = none ∧
    (askNextQuestion simOne c7State (some c7Data)).1.done = true :=
  c7_duplicate_override simOne c7State c7Data "What data do you process?".toList
    rfl (by decide) (by decide)

/-- C10: when the short-answer early exit fires (an answer of fewer than
3 words with at least `MIN_QUESTIONS` history entries), `process_answer`
returns the final report with `done = true` and the advisor state —
including `interview_history` — entirely unchanged: the terminating
question/answer pair is never appended. -/
theorem c10_short_answer_frame (sim : SimFn) (st : AdvisorState) (answer question : Str)
    (reply : Option AssessmentData) (hshort : (pySplitWs answer).length < 3)
    (hmin : MIN_QUESTIONS ≤ st.interviewHistory.length) :
    processAnswer sim st answer question reply =
      ({ done := true, surfacedQuestion := none }, st) := by
  unfold processAnswer
  rw [if_pos ⟨hshort, hmin⟩]

/-- A consultation state holding exactly `MIN_QUESTIONS` history entries. -/
def minHistoryAdvisor : AdvisorState :=
  { modelDescription := [], pendingDescription := [],
    interviewHistory := List.replicate 3 ([], []), askedQuestionsTexts := [] }

/-- Witness for `c10_short_answer_frame`. -/
theorem c10_short_answer_frame_witness :
    processAnswer simZero minHistoryAdvisor "no".toList [] none =
      ({ done := true, surfacedQuestion := none }, minHistoryAdvisor) :=
  c10_short_answer_frame simZero minHistoryAdvisor "no".toList [] none (by decide) (by decide)

/-! ### The asked-versus-surfaced count (C8) -/

/-- A generator reply carrying a fresh question and a non-concluding status. -/
def needMoreReply (q : Str) : AssessmentData :=
  { status := some "need_more_info".toList, confidence := some 0,
    riskHypothesis := none, reasoning := none, nextQuestion := some q }

/-- A generator reply carrying a question *and* a confident ready status. -/
def readyReply (q : Str) : AssessmentData :=
  { status := some "ready_to_conclude".toList, confidence := some (mkRat 9 10),
    riskHypothesis := none, reasoning := none, nextQuestion := some q }

/-- A concrete five-round consultation: the generator proposes a fifth
question in the same reply that satisfies the conclusion policy, so the
question is recorded in the asked log but never shown. -/
def c8Run : RunState :=
  runInterview simZero "desc".toList (some (needMoreReply "Q one?".toList))
    [("answer one two".toList, some (needMoreReply "Q two?".toList)),
     ("answer one two".toList, some (needMoreReply "Q three?".toList)),
     ("answer one two".toList, some (needMoreReply "Q four?".toList)),
     ("answer one two".toList, some (readyReply "Q five?".toList))]

/-- C8 counterexample: at the reachable concluded state of `c8Run`,
`asked_questions_texts` holds 5 entries while only 4 questions were ever
surfaced — the fifth was appended by `_generate_question` and then
swallowed by the conclusion policy, so the claimed invariant
`asked ≤ surfaced` fails. -/
theorem c8_counterexample :
    c8Run.advisor.askedQuestionsTexts.length = 5 ∧ c8Run.surfacedCount = 4 ∧
    ¬ c8Run.advisor.askedQuestionsTexts.length ≤ c8Run.surfacedCount := by decide

/-- The corrected asked-versus-surfaced run invariant: equality while
the interview is open, at most one extra entry once it has concluded. -/
def askedSurfacedInv (rs : RunState) : Prop :=
  (rs.finished = false →
    rs.advisor.askedQuestionsTexts.length = rs.surfacedCount) ∧
  rs.advisor.askedQuestionsTexts.length ≤ rs.surfacedCount + 1

theorem processAnswer_asked_le (sim : SimFn) (st : AdvisorState) (answer question : Str)
    (reply : Option AssessmentData) :
    (processAnswer sim st answer question reply).2.askedQuestionsTexts.length ≤
      st.askedQuestionsTexts.length + 1 := by
  unfold processAnswer
  split
  · simp
  · rw [askNextQuestion_state]
    exact generateQuestion_asked_le sim _ reply

theorem processAnswer_done_false_asked (sim : SimFn) (st : AdvisorState)
    (answer question : Str) (reply : Option AssessmentData)
    (h : (processAnswer sim st answer question reply).1.done = false) :
    (processAnswer sim st answer question reply).2.askedQuestionsTexts.length =
      st.askedQuestionsTexts.length + 1 := by
  unfold processAnswer at h ⊢
  split at h
  · exact absurd h (by simp)
  · next hcond =>
    rw [if_neg hcond]
    exact askNextQuestion_done_false_asked sim _ reply h

theorem runStep_askedSurfacedInv (sim : SimFn) (rs : RunState)
    (input : Str × Option AssessmentData) (h : askedSurfacedInv rs) :
    askedSurfacedInv (runStep sim rs input) := by
  obtain ⟨h1, h2⟩ := h
  simp only [runStep]
  split
  · exact ⟨h1, h2⟩
  · next hfin =>
    have hopen : rs.finished = false := by
      revert hfin; cases rs.finished <;> simp
    have heq := h1 hopen
    split
    · next hdone =>
      refine ⟨fun hf => by simp at hf, ?_⟩
      have hle := processAnswer_asked_le sim rs.advisor input.1 rs.currentQuestion input.2
      dsimp only
      omega
    · next hdone =>
      have hfd : (processAnswer sim rs.advisor input.1 rs.currentQuestion input.2).1.done = false := by
        revert hdone
        cases (processAnswer sim rs.advisor input.1 rs.currentQuestion input.2).1.done <;> simp
      have hgrow := processAnswer_done_false_asked sim rs.advisor input.1 rs.currentQuestion input.2 hfd
      exact ⟨fun _ => by dsimp only; omega, by dsimp only; omega⟩

theorem foldl_askedSurfacedInv (sim : SimFn) :
    ∀ (steps : List (Str × Option AssessmentData)) (rs : RunState),
      askedSurfacedInv rs → askedSurfacedInv (steps.foldl (runStep sim) rs) := by
  intro steps
  induction steps with
  | nil => intro rs h; exact h
  | cons s rest ih => intro rs h; exact ih _ (runStep_askedSurfacedInv sim rs s h)

/-- C8 (amended): at every reachable state of a consultation the asked
log matches the surfaced count exactly while the interview is open, and
exceeds it by at most one after conclusion — the possible excess entry
being a generated question recorded at lines 227-236 and then swallowed
by the conclusion policy of `ask_next_question`. -/
theorem c8_amended_asked_bound (sim : SimFn) (desc : Str)
    (firstReply : Option AssessmentData)
    (steps : List (Str × Option AssessmentData)) :
    ((runInterview sim desc firstReply steps).finished = false →
      (runInterview sim desc firstReply steps).advisor.askedQuestionsTexts.length =
        (runInterview sim desc firstReply steps).surfacedCount) ∧
    (runInterview sim desc firstReply steps).advisor.askedQuestionsTexts.length ≤
      (runInterview sim desc firstReply steps).surfacedCount + 1 := by
  simp only [runInterview]
  refine foldl_askedSurfacedInv sim steps _ ?_
  have hle : (askNextQuestion sim
      { modelDescription := desc, pendingDescription := [],
        interviewHistory := [], askedQuestionsTexts := [] } firstReply).2.askedQuestionsTexts.length ≤ 1 := by
    have := generateQuestion_asked_le sim
      { modelDescription := desc, pendingDescription := [],
        interviewHistory := [], askedQuestionsTexts := [] } firstReply
    rw [askNextQuestion_state]
    simpa using this
  split
  · exact ⟨fun hf => by simp at hf, by dsimp only; omega⟩
  · next hdone =>
    have hfd : (askNextQuestion sim
        { modelDescription := desc, pendingDescription := [],
          interviewHistory := [], askedQuestionsTexts := [] } firstReply).1.done = false := by
      revert hdone
      cases (askNextQuestion sim
        { modelDescription := desc, pendingDescription := [],
          interviewHistory := [], askedQuestionsTexts := [] } firstReply).1.done <;> simp
    have hgrow := askNextQuestion_done_false_asked sim
      { modelDescription := desc, pendingDescription := [],
        interviewHistory := [], askedQuestionsTexts := [] } firstReply hfd
    exact ⟨fun _ => by dsimp only; omega, by dsimp only; omega⟩

/-- Witness for `c8_amended_asked_bound` on a one-question open run. -/
theorem c8_amended_witness :
    (runInterview simZero [] (some (needMoreReply "Q one?".toList)) []).advisor.askedQuestionsTexts.length =
      (runInterview simZero [] (some (needMoreReply "Q one?".toList)) []).surfacedCount ∧
    (runInterview simZero [] (some (needMoreReply "Q one?".toList)) []).advisor.askedQuestionsTexts.length ≤
      (runInterview simZero [] (some (needMoreReply "Q one?".toList)) []).surfacedCount + 1 :=
  ⟨(c8_amended_asked_bound simZero [] (some (needMoreReply "Q one?".toList)) []).1 (by decide),
   (c8_amended_asked_bound simZero [] (some (needMoreReply "Q one?".toList)) []).2⟩

/-! ## Prohibited-system final report
(`legal_advisor.py`, `generate_prohibited_final_report`, lines 637-767.)
The function interpolates exactly three non-constant values into an
f-string: `description[:1000]` (where `description` is
`self.pending_description or self.model_description`), the current
wall-clock time `datetime.now().strftime('%Y-%m-%d %H:%M:%S')`, and the
session identity `id(self)`.  The constant legal boilerplate between the
interpolation points is abbreviated below to its head lines; the claims
depend only on which inputs reach the text, not on the boilerplate's
wording.  No text-completion call occurs anywhere in the function, which
the embedding reflects by taking no completion oracle. -/

/-- The fixed report text up to the interpolated description. -/
def prohibitedReportHead : Str :=
  "# EU AI ACT COMPLIANCE ASSESSMENT - PROHIBITED SYSTEM\n\n**FINAL DETERMINATION: PROHIBITED AI SYSTEM**\n\n## SYSTEM ASSESSED\n".toList

/-- The fixed legal boilerplate between the description and the
completion timestamp (violation summary, penalties, required actions,
compliance-path assessment, disclaimers), ending in the
`**Assessment completed**: ` label. -/
def prohibitedReportBody : Str :=
  "\n\n## RISK CLASSIFICATION\n**Risk Level:** PROHIBITED\n**Confidence:** High\n**Legal Basis:** Article 5 - Prohibited Artificial Intelligence Practices\n\n---\n\n**Assessment completed**: ".toList

/-- The fixed trailing text after the session identity. -/
def prohibitedReportTail : Str :=
  "\n\n---\n\n## NEXT STEPS\n\nType 'reset' to start a new assessment with a different system.\n\n**DO NOT proceed with deployment or operation of this system.**\n".toList

/-- Python `generate_prohibited_final_report` (lines 637-767):
`description = self.pending_description or self.model_description`
(line 640), then the f-string template with the three interpolations. -/
def generateProhibitedFinalReport (pending modelDesc now : Str) (sessionId : ℕ) : Str :=
  let description := if pending.isEmpty then modelDesc else pending
  prohibitedReportHead ++ description.take 1000 ++ prohibitedReportBody ++
    now ++ "\n**Session ID**: ".toList ++ (toString sessionId).toList ++
    prohibitedReportTail

/-- C9 counterexample: two runs with identical stored descriptions but
different wall-clock timestamps produce different report text — the
template interpolates `datetime.now()` (line 756) and `id(self)`
(line 757), so the report is not a function of the descriptions alone. -/
theorem c9_counterexample :
    generateProhibitedFinalReport "camera system".toList [] "2026-10-12 10:00:00".toList 42 ≠
      generateProhibitedFinalReport "camera system".toList [] "2026-10-12 10:00:01".toList 42 := by
  decide

/-- C9 (amended): the report never calls the text-completion
collaborator and, for a fixed completion timestamp and session identity,
is a function of the effective description alone — `pending_description`
when nonempty, `model_description` otherwise; the timestamp and session
id are the only other non-constant inputs. -/
theorem c9_amended_report_inputs (pending modelDesc pending' modelDesc' now : Str)
    (sessionId : ℕ)
    (h : (if pending.isEmpty then modelDesc else pending) =
         (if pending'.isEmpty then modelDesc' else pending')) :
    generateProhibitedFinalReport pending modelDesc now sessionId =
      generateProhibitedFinalReport pending' modelDesc' now sessionId := by
  simp only [generateProhibitedFinalReport]
  rw [h]

/-- Witness for `c9_amended_report_inputs`: with a nonempty pending
description the committed `model_description` is ignored entirely. -/
theorem c9_amended_witness :
    generateProhibitedFinalReport "x".toList "first ignored".toList "2026-01-01 00:00:00".toList 1 =
      generateProhibitedFinalReport "x".toList "second ignored".toList "2026-01-01 00:00:00".toList 1 :=
  c9_amended_report_inputs "x".toList "first ignored".toList "x".toList
    "second ignored".toList "2026-01-01 00:00:00".toList 1 (by decide)

end RegalIA
